import Mathlib

/-!
Shallow embedding of `bot_huelgas.py`: a polling bot that scans fixed
sources for strike-related items, filters them with a keyword relevance
check, deduplicates against a persisted seen-set and forwards new items
to a notification channel.  Text is modelled as `List Char`; the network,
the HTML parser and the notification transport are modelled by explicit
inputs (fetched documents / per-source outcomes and a send oracle).
-/

namespace HuelgasBot

/-- Text blobs (Python `str`) are modelled as lists of characters. -/
abbrev Str := List Char

/-- Models Python `str.lower` on the alphabet this program works with:
ASCII letters plus the accented Spanish capitals that occur in the
scanned pages (the keyword list itself is already lower-case).
`Char.toLower` handles the ASCII range. -/
def pyLower (c : Char) : Char :=
  if c = 'Á' then 'á' else if c = 'É' then 'é' else if c = 'Í' then 'í'
  else if c = 'Ó' then 'ó' else if c = 'Ú' then 'ú' else if c = 'Ü' then 'ü'
  else if c = 'Ñ' then 'ñ' else c.toLower

/-- `text.lower()` applied characterwise. -/
def lowerStr (s : Str) : Str := s.map pyLower

/-- `s.startswith(pat)`: `startsWithL pat s` is true when `pat` is an
initial segment of `s`. -/
def startsWithL : Str → Str → Bool
  | [], _ => true
  | _ :: _, [] => false
  | p :: ps, c :: cs => p == c && startsWithL ps cs

/-- Python substring membership `pat in s`: `pat` occurs contiguously in
`s` (the empty pattern occurs in every string). -/
def containsL (pat : Str) : Str → Bool
  | [] => pat.isEmpty
  | c :: t => startsWithL pat (c :: t) || containsL pat t

/-- Drop leading whitespace (half of Python `str.strip`). -/
def lstripWs : Str → Str
  | [] => []
  | c :: t => if c.isWhitespace then lstripWs t else c :: t

/-- Python `s.strip()`: whitespace removed from both ends. -/
def stripL (s : Str) : Str := (lstripWs (lstripWs s).reverse).reverse

/-- Python `s.rstrip("/")`: remove every trailing slash. -/
def rstripSlash (s : Str) : Str :=
  (go s.reverse).reverse
where
  go : Str → Str
    | [] => []
    | c :: t => if c = '/' then go t else c :: t

/-- Python `s.lstrip("/")`: remove every leading slash. -/
def lstripSlash : Str → Str
  | [] => []
  | c :: t => if c = '/' then lstripSlash t else c :: t

/-- The anchor word "huelga" demanded by `is_relevant`. -/
def anchorWord : Str := "huelga".data

/-- The literal " " joining link text and link target before the
relevance test. -/
def sepSpace : Str := " ".data

/-- The literal "::" joining source name and url in item ids. -/
def sepId : Str := "::".data

/-- The literal "http" tested by `href.startswith("http")`. -/
def httpLit : Str := "http".data

/-- The literal "/" joining base url and relative target. -/
def slashLit : Str := "/".data

/-- `EDU_KEYWORDS` from the source, verbatim. -/
def EDU_KEYWORDS : List Str :=
  ["educación".data, "educativo".data, "enseñanza".data, "estudiantes".data,
   "alumnos".data, "alumnado".data,
   "colegio".data, "instituto".data, "universidad".data, "universidades".data,
   "campus".data,
   "profesorado".data, "profesores".data, "maestros".data, "docentes".data,
   "escuela".data, "upm".data, "ucm".data, "uam".data, "transporte escolar".data]

/-- `is_relevant(text)`: lower-case the input, demand the anchor word
"huelga", then accept iff some education keyword occurs as a substring. -/
def is_relevant (text : Str) : Bool :=
  let t := lowerStr text
  if !(containsL anchorWord t) then false
  else EDU_KEYWORDS.any (fun kw => containsL kw t)

/-- A source configuration entry of `SOURCES`: its `name` and `url`
(the `type` field only selects which checker runs and is kept implicit
in which extractor a theorem mentions). -/
structure Source where
  name : Str
  url : Str
deriving DecidableEq

/-- One `<a>` element as BeautifulSoup exposes it to the loop:
`a.get("href")` (`none` when the attribute is absent) and `a.get_text()`. -/
structure Anchor where
  href : Option Str
  text : Str
deriving DecidableEq

/-- A fetched, parsed HTML page: the sequence of its `<a>` elements and
`soup.get_text()`, the page's full visible text. -/
structure HtmlDoc where
  anchors : List Anchor
  fullText : Str
deriving DecidableEq

/-- A candidate item as the checkers build it: keys `id`, `title`,
`url`, `summary` of the Python dict. -/
structure Item where
  id : Str
  title : Str
  url : Str
  summary : Str
deriving DecidableEq

/-- The loop body of `check_html_for_huelga` for one anchor: combine
stripped link text and href, test relevance, resolve the url
(`href` when it starts with "http", otherwise base with trailing
slashes removed + "/" + href with leading slashes removed) and build
the item dict; `none` when the combined text is not relevant. -/
def linkItemOf (src : Source) (a : Anchor) : Option Item :=
  let href := a.href.getD []
  let a_text := stripL a.text
  if is_relevant (a_text ++ sepSpace ++ href) then
    let url := if startsWithL httpLit href then href
               else rstripSlash src.url ++ slashLit ++ lstripSlash href
    some { id := src.name ++ sepId ++ url,
           title := if a_text.isEmpty then "Aviso de huelga educativa".data else a_text,
           url := url,
           summary := a_text }
  else none

/-- The fallback item `check_html_for_huelga` appends when no anchor
matched but the whole page text is relevant. -/
def htmlFallback (src : Source) (doc : HtmlDoc) : Item :=
  { id := src.name ++ sepId ++ src.url,
    title := "Posible referencia a huelga educativa".data,
    url := src.url,
    summary := doc.fullText.take 400 }

/-- `check_html_for_huelga(session, src)` after the fetch and parse:
collect an item per relevant anchor; if none matched and the page text
is relevant, emit the single fallback item. -/
def check_html_for_huelga (src : Source) (doc : HtmlDoc) : List Item :=
  let results := doc.anchors.filterMap (linkItemOf src)
  if is_relevant doc.fullText && results.isEmpty then results ++ [htmlFallback src doc]
  else results

/-- The loop body of `check_bocm` for one anchor: identical to
`linkItemOf` except for the default title string. -/
def bocmItemOf (src : Source) (a : Anchor) : Option Item :=
  let href := a.href.getD []
  let a_text := stripL a.text
  if is_relevant (a_text ++ sepSpace ++ href) then
    let url := if startsWithL httpLit href then href
               else rstripSlash src.url ++ slashLit ++ lstripSlash href
    some { id := src.name ++ sepId ++ url,
           title := if a_text.isEmpty then "BOCM: aviso de huelga educativa".data else a_text,
           url := url,
           summary := a_text }
  else none

/-- The fallback item `check_bocm` appends when no anchor matched but
the whole page text is relevant. -/
def bocmFallback (src : Source) (doc : HtmlDoc) : Item :=
  { id := src.name ++ sepId ++ src.url,
    title := "BOCM: posible mención a huelga educativa".data,
    url := src.url,
    summary := doc.fullText.take 400 }

/-- `check_bocm(session, src)` after the fetch and parse. -/
def check_bocm (src : Source) (doc : HtmlDoc) : List Item :=
  let results := doc.anchors.filterMap (bocmItemOf src)
  if is_relevant doc.fullText && results.isEmpty then results ++ [bocmFallback src doc]
  else results

/-- `gather_new_items(state)` given the per-source outcomes that
`asyncio.gather(..., return_exceptions=True)` returned: an exception
value is logged and skipped, and from each successful source every item
whose id is not yet in `state["seen"]` is collected, in order. -/
def gather_new_items : List (Except Unit (List Item)) → List Str → List Item
  | [], _ => []
  | Except.error _ :: rest, seen => gather_new_items rest seen
  | Except.ok items :: rest, seen =>
      items.filter (fun it => !(seen.contains it.id)) ++ gather_new_items rest seen

/-- `notify_channel(channel, items)` with a send oracle: `sendOk it`
says whether `channel.send` succeeds for that item.  Delivery is
sequential; the first failing send raises, so later items are not
attempted.  Returns the list of items actually delivered and whether
the whole batch went through without an exception. -/
def notifyRun (sendOk : Item → Bool) : List Item → List Item × Bool
  | [] => ([], true)
  | it :: rest =>
      if sendOk it then
        let r := notifyRun sendOk rest
        (it :: r.1, r.2)
      else ([], false)

/-- What one iteration of the `while True` loop in `on_ready` leaves
behind: the seen list afterwards, the batch handed to `notify_channel`
(empty when the channel lookup failed or there was nothing new), the
items actually delivered, and whether `save_state` ran. -/
structure CycleOut where
  newSeen : List Str
  attempted : List Item
  delivered : List Item
  saved : Bool
deriving DecidableEq

/-- One iteration of the loop body (the `try` block): gather new items;
if none, do nothing; otherwise notify when a channel is present — an
exception inside `notify_channel` is caught by the surrounding
`except`, skipping the seen-list appends and `save_state` — and on
normal completion append every new item's id and persist. -/
def cycleStep (hasChannel : Bool) (sendOk : Item → Bool)
    (results : List (Except Unit (List Item))) (seen : List Str) : CycleOut :=
  let new_items := gather_new_items results seen
  if new_items.isEmpty then
    { newSeen := seen, attempted := [], delivered := [], saved := false }
  else if hasChannel then
    let r := notifyRun sendOk new_items
    if r.2 then
      { newSeen := seen ++ new_items.map Item.id, attempted := new_items,
        delivered := r.1, saved := true }
    else
      { newSeen := seen, attempted := new_items, delivered := r.1, saved := false }
  else
    { newSeen := seen ++ new_items.map Item.id, attempted := [], delivered := [],
      saved := true }

/-- Repeated loop iterations: each cycle consumes the next per-source
outcome list and threads the seen list through.  The loop never exits:
every outcome list in `inputs` is processed. -/
def runTrace (hasChannel : Bool) (sendOk : Item → Bool) :
    List (List (Except Unit (List Item))) → List Str → List CycleOut
  | [], _ => []
  | c :: cs, seen =>
      let out := cycleStep hasChannel sendOk c seen
      out :: runTrace hasChannel sendOk cs out.newSeen

/-- Python truthiness of `DISCORD_TOKEN` (an `os.environ.get` result):
`not DISCORD_TOKEN` is true when the variable is absent or empty. -/
def pyTruthyStr : Option Str → Bool
  | none => false
  | some s => !s.isEmpty

/-- What the `__main__` guard does before anything else runs. -/
inductive StartupOutcome where
  | exitErr (code : Nat)
  | runClient
deriving DecidableEq

/-- The `__main__` guard: `if not DISCORD_TOKEN or CHANNEL_ID == 0:
raise SystemExit(1)`, otherwise `client.run(DISCORD_TOKEN)` — the loop
and all fetching only ever happen inside `runClient`. -/
def startupMain (token : Option Str) (channelId : Int) : StartupOutcome :=
  if !(pyTruthyStr token) || channelId == 0 then StartupOutcome.exitErr 1
  else StartupOutcome.runClient

/-! ### Concrete sample data used by witnesses and counterexamples -/

/-- A small sample source. -/
def srcEx : Source := { name := "A".data, url := "http://a.es".data }

/-- An anchor whose combined text and target is relevant. -/
def anchorEx : Anchor := { href := some "/x".data, text := "huelga educación".data }

/-- A page with one irrelevant anchor but relevant full text. -/
def docFallbackEx : HtmlDoc :=
  { anchors := [{ href := some "/x".data, text := "nada".data }],
    fullText := "Posible huelga en la universidad".data }

/-- A page with one relevant anchor. -/
def docLinkEx : HtmlDoc := { anchors := [anchorEx], fullText := "texto".data }

/-- A sample candidate item. -/
def itemEx : Item :=
  { id := "A::http://a.es/x".data, title := "huelga educación".data,
    url := "http://a.es/x".data, summary := "huelga educación".data }

/-- A second sample candidate item with a different id. -/
def itemEx2 : Item :=
  { id := "A::http://a.es/y".data, title := "huelga docentes".data,
    url := "http://a.es/y".data, summary := "huelga docentes".data }

/-- A page listing the same relevant link twice: the extractor then
produces two candidate items with the same id. -/
def docDupEx : HtmlDoc := { anchors := [anchorEx, anchorEx], fullText := "texto".data }

/-! ### Helper lemmas -/

example : is_relevant "Huelga de universidades".data = true := by decide
example : is_relevant "universidades cerradas".data = false := by decide
example : is_relevant "HUELGA general".data = false := by decide

/-- `notify_channel` delivers the longest prefix of sends that succeed
and reports success iff every send succeeded. -/
theorem notifyRun_eq (sendOk : Item → Bool) (l : List Item) :
    notifyRun sendOk l = (l.takeWhile sendOk, l.all sendOk) := by
  induction l with
  | nil => rfl
  | cons it rest ih =>
    by_cases h : sendOk it = true
    · simp [notifyRun, List.takeWhile_cons, h, ih]
    · simp [notifyRun, List.takeWhile_cons, h, ih]

/-- With a send oracle that always succeeds the whole batch is
delivered. -/
theorem notifyRun_all_ok (l : List Item) : notifyRun (fun _ => true) l = (l, true) := by
  induction l with
  | nil => rfl
  | cons it rest ih => simp [notifyRun, ih]

/-- Every delivered item belongs to the batch. -/
theorem notifyRun_delivered_sub (sendOk : Item → Bool) :
    ∀ l : List Item, ∀ x ∈ (notifyRun sendOk l).1, x ∈ l := by
  intro l
  induction l with
  | nil => intro x hx; cases hx
  | cons it rest ih =>
    intro x hx
    simp only [notifyRun] at hx
    split at hx
    case isTrue =>
      rcases List.mem_cons.mp hx with h1 | h2
      · exact h1 ▸ List.mem_cons_self it rest
      · exact List.mem_cons_of_mem it (ih x h2)
    case isFalse => cases hx

/-- Everything gathered in a cycle was not yet in the seen list. -/
theorem mem_gather_not_seen (results : List (Except Unit (List Item))) (seen : List Str) :
    ∀ it ∈ gather_new_items results seen, it.id ∉ seen := by
  induction results with
  | nil => intro it hit; cases hit
  | cons r rest ih =>
    cases r with
    | error e => simpa [gather_new_items] using ih
    | ok items =>
      intro it hit
      simp only [gather_new_items] at hit
      rcases List.mem_append.mp hit with h1 | h2
      · have h := (List.mem_filter.mp h1).2
        simp at h
        exact h
      · exact ih it h2

/-- Gathering against a seen list that covers both the old seen list
and everything the first gather produced yields nothing. -/
theorem gather_eq_nil (results : List (Except Unit (List Item))) (seen ns : List Str)
    (hsub : ∀ s ∈ seen, s ∈ ns)
    (hnew : ∀ it ∈ gather_new_items results seen, it.id ∈ ns) :
    gather_new_items results ns = [] := by
  induction results with
  | nil => rfl
  | cons r rest ih =>
    cases r with
    | error e =>
      simp only [gather_new_items] at hnew ⊢
      exact ih hnew
    | ok items =>
      simp only [gather_new_items] at hnew ⊢
      have hfil : items.filter (fun it => !(ns.contains it.id)) = [] := by
        rw [List.filter_eq_nil_iff]
        intro it hit hbt
        have hid : it.id ∈ ns := by
          by_cases hseen : it.id ∈ seen
          · exact hsub _ hseen
          · apply hnew it
            apply List.mem_append_left
            rw [List.mem_filter]
            exact ⟨hit, by simp [hseen]⟩
        simp [hid] at hbt
      rw [hfil, List.nil_append]
      exact ih fun it hit => hnew it (List.mem_append_right _ hit)

/-- The cycle only ever grows the seen list. -/
theorem cycleStep_seen_mono (hasChannel : Bool) (sendOk : Item → Bool)
    (results : List (Except Unit (List Item))) (seen : List Str) :
    ∀ s ∈ seen, s ∈ (cycleStep hasChannel sendOk results seen).newSeen := by
  intro s hs
  simp only [cycleStep]
  split
  · exact hs
  · split
    · split
      · exact List.mem_append_left _ hs
      · exact hs
    · exact List.mem_append_left _ hs

/-- Every item of the batch handed to the notifier was gathered this
cycle. -/
theorem cycleStep_attempted_sub (hasChannel : Bool) (sendOk : Item → Bool)
    (results : List (Except Unit (List Item))) (seen : List Str) :
    ∀ x ∈ (cycleStep hasChannel sendOk results seen).attempted,
      x ∈ gather_new_items results seen := by
  intro x hx
  simp only [cycleStep] at hx
  split at hx
  · cases hx
  · split at hx
    · split at hx
      · exact hx
      · exact hx
    · cases hx

/-- Every item delivered in a cycle was gathered this cycle. -/
theorem cycleStep_delivered_sub (hasChannel : Bool) (sendOk : Item → Bool)
    (results : List (Except Unit (List Item))) (seen : List Str) :
    ∀ x ∈ (cycleStep hasChannel sendOk results seen).delivered,
      x ∈ gather_new_items results seen := by
  intro x hx
  simp only [cycleStep] at hx
  split at hx
  · cases hx
  · split at hx
    · split at hx
      · exact notifyRun_delivered_sub sendOk _ x hx
      · exact notifyRun_delivered_sub sendOk _ x hx
    · cases hx

/-- An id already in the seen list is never handed to the notifier nor
delivered, in any cycle of any continuation of the run. -/
theorem runTrace_avoids_seen (hasChannel : Bool) (sendOk : Item → Bool)
    (inputs : List (List (Except Unit (List Item)))) :
    ∀ (seen : List Str) (s : Str), s ∈ seen →
      ∀ out ∈ runTrace hasChannel sendOk inputs seen,
        (∀ x ∈ out.attempted, x.id ≠ s) ∧ (∀ x ∈ out.delivered, x.id ≠ s) := by
  induction inputs with
  | nil =>
    intro seen s hs out hout
    simp [runTrace] at hout
  | cons c cs ih =>
    intro seen s hs out hout
    simp only [runTrace] at hout
    rcases List.mem_cons.mp hout with h1 | h2
    · subst h1
      constructor
      · intro x hx heq
        have hxg := cycleStep_attempted_sub hasChannel sendOk c seen x hx
        exact mem_gather_not_seen c seen x hxg (by rw [heq]; exact hs)
      · intro x hx heq
        have hxg := cycleStep_delivered_sub hasChannel sendOk c seen x hx
        exact mem_gather_not_seen c seen x hxg (by rw [heq]; exact hs)
    · exact ih _ s (cycleStep_seen_mono hasChannel sendOk c seen s hs) out h2

/-- A cycle in which every delivery succeeds, spelled out: nothing
happens on an empty gather; otherwise the whole batch is handed over
and delivered when a channel is present, and in either channel case
all new ids are appended and persisted. -/
theorem cycleStep_allOk (hasChannel : Bool)
    (results : List (Except Unit (List Item))) (seen : List Str) :
    cycleStep hasChannel (fun _ => true) results seen
      = if (gather_new_items results seen).isEmpty then
          { newSeen := seen, attempted := [], delivered := [], saved := false }
        else if hasChannel then
          { newSeen := seen ++ (gather_new_items results seen).map Item.id,
            attempted := gather_new_items results seen,
            delivered := gather_new_items results seen, saved := true }
        else
          { newSeen := seen ++ (gather_new_items results seen).map Item.id,
            attempted := [], delivered := [], saved := true } := by
  by_cases h1 : (gather_new_items results seen).isEmpty = true <;>
    by_cases h2 : hasChannel = true <;>
      simp [cycleStep, notifyRun_all_ok, h1, h2]

/-- When every delivery succeeds, every id of the batch handed over
ends up in the new seen list. -/
theorem cycleStep_allOk_attempted_seen (hasChannel : Bool)
    (results : List (Except Unit (List Item))) (seen : List Str) :
    ∀ x ∈ (cycleStep hasChannel (fun _ => true) results seen).attempted,
      x.id ∈ (cycleStep hasChannel (fun _ => true) results seen).newSeen := by
  intro x hx
  rw [cycleStep_allOk] at hx ⊢
  by_cases h1 : (gather_new_items results seen).isEmpty = true
  · simp [h1] at hx
  · by_cases h2 : hasChannel = true
    · simp only [h1, h2, if_true, if_false, ite_true, ite_false] at hx ⊢
      simp at hx ⊢
      exact Or.inr ⟨x, hx, rfl⟩
    · simp [h1, h2] at hx

/-- The per-anchor count of `check_html_for_huelga`: one item per anchor
whose combined text+target is relevant. -/
theorem linkItems_length (src : Source) (l : List Anchor) :
    (l.filterMap (linkItemOf src)).length
      = (l.filter (fun a =>
          is_relevant (stripL a.text ++ sepSpace ++ a.href.getD []))).length := by
  induction l with
  | nil => rfl
  | cons a t ih =>
    by_cases h : is_relevant (stripL a.text ++ sepSpace ++ a.href.getD []) = true
    all_goals simp only [List.append_assoc] at h ih
    · simp [List.filterMap_cons, linkItemOf, List.filter_cons, h, ih]
    · simp [List.filterMap_cons, linkItemOf, List.filter_cons, h, ih]

/-- Every item the anchor loop emits comes from a relevant anchor, with
the url resolved by the concatenation rule and the id built from the
source name, "::" and that url. -/
theorem linkItems_shape (src : Source) (l : List Anchor) :
    ∀ it ∈ l.filterMap (linkItemOf src),
      ∃ a, a ∈ l
        ∧ is_relevant (stripL a.text ++ sepSpace ++ a.href.getD []) = true
        ∧ it.url = (if startsWithL httpLit (a.href.getD []) then a.href.getD []
                    else rstripSlash src.url ++ slashLit ++ lstripSlash (a.href.getD []))
        ∧ it.id = src.name ++ sepId ++ it.url := by
  intro it hit
  obtain ⟨a, ha, hfa⟩ := List.mem_filterMap.mp hit
  refine ⟨a, ha, ?_⟩
  simp only [linkItemOf] at hfa
  split at hfa
  case isTrue h =>
    cases hfa
    exact ⟨h, rfl, rfl⟩
  case isFalse h => cases hfa

/-- When some anchor passes the relevance filter, the fallback branch
of `check_html_for_huelga` is not taken. -/
theorem check_html_no_fallback (src : Source) (doc : HtmlDoc)
    (h : ∃ a ∈ doc.anchors,
      is_relevant (stripL a.text ++ sepSpace ++ a.href.getD []) = true) :
    check_html_for_huelga src doc = doc.anchors.filterMap (linkItemOf src) := by
  obtain ⟨a, ha, hrel⟩ := h
  simp only [List.append_assoc] at hrel
  have hne : doc.anchors.filterMap (linkItemOf src) ≠ [] := by
    intro hnil
    have h0 := List.filterMap_eq_nil_iff.mp hnil a ha
    simp [linkItemOf, hrel] at h0
  simp [check_html_for_huelga, List.isEmpty_eq_false.mpr hne]

/-- When some anchor passes the relevance filter, the fallback branch
of `check_bocm` is not taken. -/
theorem check_bocm_no_fallback (src : Source) (doc : HtmlDoc)
    (h : ∃ a ∈ doc.anchors,
      is_relevant (stripL a.text ++ sepSpace ++ a.href.getD []) = true) :
    check_bocm src doc = doc.anchors.filterMap (bocmItemOf src) := by
  obtain ⟨a, ha, hrel⟩ := h
  simp only [List.append_assoc] at hrel
  have hne : doc.anchors.filterMap (bocmItemOf src) ≠ [] := by
    intro hnil
    have h0 := List.filterMap_eq_nil_iff.mp hnil a ha
    simp [bocmItemOf, hrel] at h0
  simp [check_bocm, List.isEmpty_eq_false.mpr hne]

/-! ### Claim theorems -/

/-- C2: `is_relevant` lower-cases its input, returns false whenever the
anchor word "huelga" is absent from the lowered text regardless of
keyword presence, and returns true iff the anchor word is present and
some keyword of the fixed education list occurs as a substring of the
lowered text (substring, not token, matching). -/
theorem c2_relevance_filter (text : Str) :
    (containsL anchorWord (lowerStr text) = false → is_relevant text = false)
    ∧ (is_relevant text = true ↔
        containsL anchorWord (lowerStr text) = true
        ∧ ∃ kw, kw ∈ EDU_KEYWORDS ∧ containsL kw (lowerStr text) = true) := by
  constructor
  · intro h
    simp [is_relevant, h]
  · cases h : containsL anchorWord (lowerStr text) with
    | false => simp [is_relevant, h]
    | true => simp [is_relevant, h, List.any_eq_true]

/-- Witness for C2: a concrete text containing the anchor word and the
keyword "profesorado" (inside a capitalised sentence) is accepted. -/
theorem c2_relevance_filter_witness :
    is_relevant "Huelga del profesorado".data = true :=
  (c2_relevance_filter "Huelga del profesorado".data).2.mpr
    ⟨by decide, "profesorado".data, by decide, by decide⟩

/-- C4: when no anchor of the page individually passes the relevance
filter but the full visible page text does, both HTML extractors emit
exactly one fallback item whose url is the source url and whose
summary is at most 400 characters long; when at least one anchor
matches, no fallback item is emitted (the output is exactly the
per-anchor items). -/
theorem c4_fallback_item (src : Source) (doc : HtmlDoc) :
    ((∀ a ∈ doc.anchors,
        is_relevant (stripL a.text ++ sepSpace ++ a.href.getD []) = false) →
      is_relevant doc.fullText = true →
        check_html_for_huelga src doc = [htmlFallback src doc]
        ∧ (htmlFallback src doc).url = src.url
        ∧ (htmlFallback src doc).summary.length ≤ 400
        ∧ check_bocm src doc = [bocmFallback src doc]
        ∧ (bocmFallback src doc).url = src.url
        ∧ (bocmFallback src doc).summary.length ≤ 400)
    ∧ ((∃ a ∈ doc.anchors,
          is_relevant (stripL a.text ++ sepSpace ++ a.href.getD []) = true) →
        check_html_for_huelga src doc = doc.anchors.filterMap (linkItemOf src)
        ∧ check_bocm src doc = doc.anchors.filterMap (bocmItemOf src)) := by
  constructor
  · intro hlinks hfull
    have hnilH : doc.anchors.filterMap (linkItemOf src) = [] := by
      rw [List.filterMap_eq_nil_iff]
      intro a ha
      have h := hlinks a ha
      simp only [List.append_assoc] at h
      simp [linkItemOf, h]
    have hnilB : doc.anchors.filterMap (bocmItemOf src) = [] := by
      rw [List.filterMap_eq_nil_iff]
      intro a ha
      have h := hlinks a ha
      simp only [List.append_assoc] at h
      simp [bocmItemOf, h]
    refine ⟨?_, rfl, ?_, ?_, rfl, ?_⟩
    · simp [check_html_for_huelga, hnilH, hfull]
    · simp [htmlFallback]
    · simp [check_bocm, hnilB, hfull]
    · simp [bocmFallback]
  · intro h
    exact ⟨check_html_no_fallback src doc h, check_bocm_no_fallback src doc h⟩

/-- Witness for C4: the fallback fires on a page whose only anchor is
irrelevant but whose text is, and is suppressed on a page with a
matching anchor. -/
theorem c4_fallback_item_witness :
    check_html_for_huelga srcEx docFallbackEx = [htmlFallback srcEx docFallbackEx]
    ∧ check_html_for_huelga srcEx docLinkEx
        = docLinkEx.anchors.filterMap (linkItemOf srcEx) :=
  ⟨((c4_fallback_item srcEx docFallbackEx).1 (by decide) (by decide)).1,
   ((c4_fallback_item srcEx docLinkEx).2 ⟨anchorEx, by decide, by decide⟩).1⟩

/-- C5: the per-anchor pass of the HTML extractor emits exactly one
item per anchor whose combined stripped text and target passes the
relevance filter; each such item's id is the source name, "::" and the
resolved url, where a target not starting with "http" is resolved by
stripping trailing slashes from the base url, leading slashes from the
target, and joining with "/"; and when at least one anchor passes, the
extractor's whole output is exactly those items. -/
theorem c5_link_items (src : Source) (doc : HtmlDoc) :
    (doc.anchors.filterMap (linkItemOf src)).length
      = (doc.anchors.filter (fun a =>
          is_relevant (stripL a.text ++ sepSpace ++ a.href.getD []))).length
    ∧ (∀ it ∈ doc.anchors.filterMap (linkItemOf src),
        ∃ a, a ∈ doc.anchors
          ∧ is_relevant (stripL a.text ++ sepSpace ++ a.href.getD []) = true
          ∧ it.url = (if startsWithL httpLit (a.href.getD []) then a.href.getD []
                      else rstripSlash src.url ++ slashLit ++ lstripSlash (a.href.getD []))
          ∧ it.id = src.name ++ sepId ++ it.url)
    ∧ ((∃ a ∈ doc.anchors,
          is_relevant (stripL a.text ++ sepSpace ++ a.href.getD []) = true) →
        check_html_for_huelga src doc = doc.anchors.filterMap (linkItemOf src)) := by
  exact ⟨linkItems_length src doc.anchors, linkItems_shape src doc.anchors,
    check_html_no_fallback src doc⟩

/-- Witness for C5: on the one-relevant-anchor page the extractor emits
exactly one item, with the id built from the resolved url. -/
theorem c5_link_items_witness :
    (docLinkEx.anchors.filterMap (linkItemOf srcEx)).length
      = (docLinkEx.anchors.filter (fun a =>
          is_relevant (stripL a.text ++ sepSpace ++ a.href.getD []))).length
    ∧ check_html_for_huelga srcEx docLinkEx
        = docLinkEx.anchors.filterMap (linkItemOf srcEx) :=
  ⟨(c5_link_items srcEx docLinkEx).1,
   (c5_link_items srcEx docLinkEx).2.2 ⟨anchorEx, by decide, by decide⟩⟩

/-- C1 counterexample: a cycle whose merged candidate list carries the
same id twice hands both copies to the notifier — `gather_new_items`
only filters against the seen list, which is extended after the batch,
so within-cycle duplicates are both reported. -/
theorem c1_counterexample :
    (cycleStep true (fun _ => true)
        [Except.ok (check_html_for_huelga srcEx docDupEx)] []).attempted.length = 2
    ∧ ¬ ((cycleStep true (fun _ => true)
          [Except.ok (check_html_for_huelga srcEx docDupEx)] []).attempted.map
            Item.id).Nodup := by
  refine ⟨by decide, by decide⟩

/-- C1 amended: at-most-once reporting holds between cycles — in a run
whose deliveries all succeed, the batches handed to the notifier in two
different cycles never share an id (each completed cycle appends its
batch's ids to the seen set, and gathering always filters the seen
set); only within a single cycle's batch can an id repeat. -/
theorem c1_cross_cycle_unique (hasChannel : Bool)
    (inputs : List (List (Except Unit (List Item)))) (seen : List Str) :
    List.Pairwise (fun b1 b2 => ∀ x ∈ b1, ∀ y ∈ b2, x.id ≠ y.id)
      ((runTrace hasChannel (fun _ => true) inputs seen).map CycleOut.attempted) := by
  induction inputs generalizing seen with
  | nil => simp [runTrace]
  | cons c cs ih =>
    simp only [runTrace, List.map_cons]
    constructor
    · intro b hb x hx y hy
      obtain ⟨out, hout, hbeq⟩ := List.mem_map.mp hb
      subst hbeq
      have hxid := cycleStep_allOk_attempted_seen hasChannel c seen x hx
      have havoid := runTrace_avoids_seen hasChannel (fun _ => true) cs _ x.id hxid out hout
      intro heq
      exact havoid.1 y hy heq.symm
    · exact ih _

/-- Witness for the amended C1 on a concrete two-cycle run. -/
theorem c1_cross_cycle_unique_witness :
    List.Pairwise (fun b1 b2 => ∀ x ∈ b1, ∀ y ∈ b2, x.id ≠ y.id)
      ((runTrace true (fun _ => true)
        [[Except.ok [itemEx]], [Except.ok [itemEx, itemEx2]]] []).map CycleOut.attempted) :=
  c1_cross_cycle_unique true [[Except.ok [itemEx]], [Except.ok [itemEx, itemEx2]]] []

/-- C3: running a cycle twice against unchanged per-source results is
idempotent — once the first cycle has completed (all deliveries
succeed, its new ids appended), a second gather over the same results
finds nothing new, and the second cycle is a no-op. -/
theorem c3_idempotent (hasChannel : Bool)
    (results : List (Except Unit (List Item))) (seen : List Str) :
    gather_new_items results
        ((cycleStep hasChannel (fun _ => true) results seen).newSeen) = []
    ∧ ∀ hasChannel2 : Bool, ∀ sendOk2 : Item → Bool,
        cycleStep hasChannel2 sendOk2 results
            ((cycleStep hasChannel (fun _ => true) results seen).newSeen)
          = { newSeen := (cycleStep hasChannel (fun _ => true) results seen).newSeen,
              attempted := [], delivered := [], saved := false } := by
  have hnil : gather_new_items results
      ((cycleStep hasChannel (fun _ => true) results seen).newSeen) = [] := by
    rw [cycleStep_allOk]
    by_cases h1 : (gather_new_items results seen).isEmpty = true
    · simp only [h1, if_true, ite_true]
      exact List.isEmpty_iff.mp h1
    · have hset : ∀ hc : Bool,
          (if (gather_new_items results seen).isEmpty then
            ({ newSeen := seen, attempted := [], delivered := [], saved := false } : CycleOut)
          else if hc then
            { newSeen := seen ++ (gather_new_items results seen).map Item.id,
              attempted := gather_new_items results seen,
              delivered := gather_new_items results seen, saved := true }
          else
            { newSeen := seen ++ (gather_new_items results seen).map Item.id,
              attempted := [], delivered := [], saved := true }).newSeen
          = seen ++ (gather_new_items results seen).map Item.id := by
        intro hc
        by_cases h2 : hc = true <;> simp [h1, h2]
      rw [hset hasChannel]
      apply gather_eq_nil results seen
      · exact fun s hs => List.mem_append_left _ hs
      · exact fun it hit => List.mem_append_right _ (List.mem_map_of_mem _ hit)
  refine ⟨hnil, ?_⟩
  intro hasChannel2 sendOk2
  generalize hns : (cycleStep hasChannel (fun _ => true) results seen).newSeen = ns at hnil ⊢
  simp [cycleStep, hnil]

/-- C6: a source whose fetch or parse raised contributes zero items and
does not affect the others: dropping the error outcome from a cycle's
result list changes neither the gathered items nor the cycle's effect,
and the loop goes on to process the following cycles. -/
theorem c6_error_isolation (rs1 rs2 : List (Except Unit (List Item)))
    (cs : List (List (Except Unit (List Item))))
    (hasChannel : Bool) (sendOk : Item → Bool) (seen : List Str) :
    gather_new_items (rs1 ++ Except.error () :: rs2) seen
      = gather_new_items (rs1 ++ rs2) seen
    ∧ cycleStep hasChannel sendOk (rs1 ++ Except.error () :: rs2) seen
        = cycleStep hasChannel sendOk (rs1 ++ rs2) seen
    ∧ runTrace hasChannel sendOk ((rs1 ++ Except.error () :: rs2) :: cs) seen
        = cycleStep hasChannel sendOk (rs1 ++ rs2) seen
            :: runTrace hasChannel sendOk cs
                (cycleStep hasChannel sendOk (rs1 ++ rs2) seen).newSeen := by
  have hg : gather_new_items (rs1 ++ Except.error () :: rs2) seen
      = gather_new_items (rs1 ++ rs2) seen := by
    induction rs1 with
    | nil => rfl
    | cons r t iht =>
      cases r with
      | error e => simpa [gather_new_items] using iht
      | ok items => simp [gather_new_items, iht]
  have hc : cycleStep hasChannel sendOk (rs1 ++ Except.error () :: rs2) seen
      = cycleStep hasChannel sendOk (rs1 ++ rs2) seen := by
    simp only [cycleStep, hg]
  exact ⟨hg, hc, by rw [runTrace, hc]⟩

/-- C7 counterexample: when delivery of the second batch item raises,
the first item was delivered but its id is NOT appended to the seen
set — the appends run only after `notify_channel` returns, so an
exception skips them entirely, contradicting the claim that earlier
delivered ids are still marked seen. -/
theorem c7_counterexample :
    (cycleStep true (fun it => !(it.id == itemEx2.id))
        [Except.ok [itemEx, itemEx2]] []).delivered = [itemEx]
    ∧ (cycleStep true (fun it => !(it.id == itemEx2.id))
        [Except.ok [itemEx, itemEx2]] []).newSeen = []
    ∧ (cycleStep true (fun it => !(it.id == itemEx2.id))
        [Except.ok [itemEx, itemEx2]] []).saved = false := by
  refine ⟨by decide, by decide, by decide⟩

/-- C7 amended: if some delivery of the batch raises, the items after
the first failure are not attempted (only the successful prefix is
delivered), and NO id of the batch — neither the delivered prefix nor
the rest — is added to the seen set; the state is not persisted. -/
theorem c7_abort_batch (sendOk : Item → Bool)
    (results : List (Except Unit (List Item))) (seen : List Str)
    (h : (gather_new_items results seen).all sendOk = false) :
    (cycleStep true sendOk results seen).delivered
        = (gather_new_items results seen).takeWhile sendOk
    ∧ (cycleStep true sendOk results seen).attempted = gather_new_items results seen
    ∧ (cycleStep true sendOk results seen).newSeen = seen
    ∧ (cycleStep true sendOk results seen).saved = false := by
  have hne : (gather_new_items results seen).isEmpty = false := by
    cases hg : gather_new_items results seen with
    | nil => rw [hg] at h; simp at h
    | cons a t => rfl
  simp [cycleStep, notifyRun_eq, hne, h]

/-- Witness for the amended C7: failing on the second of two items
delivers only the first and leaves the seen set empty. -/
theorem c7_abort_batch_witness :
    (cycleStep true (fun it => !(it.id == itemEx2.id))
        [Except.ok [itemEx, itemEx2]] []).delivered
      = (gather_new_items [Except.ok [itemEx, itemEx2]] []).takeWhile
          (fun it => !(it.id == itemEx2.id))
    ∧ (cycleStep true (fun it => !(it.id == itemEx2.id))
        [Except.ok [itemEx, itemEx2]] []).newSeen = [] := by
  have h := c7_abort_batch (fun it => !(it.id == itemEx2.id))
    [Except.ok [itemEx, itemEx2]] [] (by decide)
  exact ⟨h.1, h.2.2.1⟩

/-- C8: a cycle whose post-dedup candidate list is empty takes no store
action: the seen list is untouched, nothing is handed to the notifier
or delivered, and the state file is not rewritten. -/
theorem c8_empty_cycle_frame (hasChannel : Bool) (sendOk : Item → Bool)
    (results : List (Except Unit (List Item))) (seen : List Str)
    (h : gather_new_items results seen = []) :
    cycleStep hasChannel sendOk results seen
      = { newSeen := seen, attempted := [], delivered := [], saved := false } := by
  simp [cycleStep, h]

/-- Witness for C8: a source re-serving an already seen item leaves the
cycle a no-op. -/
theorem c8_empty_cycle_frame_witness :
    cycleStep true (fun _ => true) [Except.ok [itemEx]] [itemEx.id]
      = { newSeen := [itemEx.id], attempted := [], delivered := [], saved := false } :=
  c8_empty_cycle_frame true (fun _ => true) [Except.ok [itemEx]] [itemEx.id] (by decide)

/-- C9 counterexample: a DISCORD_TOKEN that is present in the
environment but empty is falsy in Python, so startup exits with status
1 even though the credential is present and the channel nonzero — the
claim's converse direction fails. -/
theorem c9_counterexample :
    startupMain (some []) 5 = StartupOutcome.exitErr 1
    ∧ some ([] : Str) ≠ (none : Option Str)
    ∧ (5 : Int) ≠ 0 := by
  refine ⟨by decide, by decide, by decide⟩

/-- C9 amended: if the credential is missing or empty, or the target
channel id is zero, the process exits with status 1 before the client
(and hence the loop and any fetch) can start; with a non-empty
credential and a nonzero channel id, startup proceeds to run the
client. -/
theorem c9_startup (token : Option Str) (channelId : Int) :
    ((pyTruthyStr token = false ∨ channelId = 0) →
        startupMain token channelId = StartupOutcome.exitErr 1)
    ∧ (pyTruthyStr token = true → channelId ≠ 0 →
        startupMain token channelId = StartupOutcome.runClient) := by
  constructor
  · intro h
    rcases h with h | h
    · simp [startupMain, h]
    · simp [startupMain, h]
  · intro h1 h2
    simp [startupMain, h1, h2]

/-- Witness for the amended C9: missing token exits, non-empty token
with nonzero channel runs the client. -/
theorem c9_startup_witness :
    startupMain none 5 = StartupOutcome.exitErr 1
    ∧ startupMain (some "x".data) 5 = StartupOutcome.runClient :=
  ⟨(c9_startup none 5).1 (Or.inl (by decide)),
   (c9_startup (some "x".data) 5).2 (by decide) (by decide)⟩

/-- C10: when the channel lookup failed, a cycle that gathers new items
delivers nothing and hands nothing to the notifier, yet appends every
new id to the seen list and persists it; afterwards no continuation of
the run — under any channel, any send oracle and any inputs, hence
also a future process that loads the persisted list — ever hands or
delivers an item with one of those ids. -/
theorem c10_no_channel_marks_seen (sendOk : Item → Bool)
    (results : List (Except Unit (List Item))) (seen : List Str)
    (h : gather_new_items results seen ≠ []) :
    (cycleStep false sendOk results seen).delivered = []
    ∧ (cycleStep false sendOk results seen).attempted = []
    ∧ (cycleStep false sendOk results seen).newSeen
        = seen ++ (gather_new_items results seen).map Item.id
    ∧ (cycleStep false sendOk results seen).saved = true
    ∧ ∀ it ∈ gather_new_items results seen,
        ∀ (hasChannel2 : Bool) (sendOk2 : Item → Bool)
          (inputs : List (List (Except Unit (List Item)))),
          ∀ out ∈ runTrace hasChannel2 sendOk2 inputs
              ((cycleStep false sendOk results seen).newSeen),
            (∀ y ∈ out.attempted, y.id ≠ it.id)
            ∧ (∀ y ∈ out.delivered, y.id ≠ it.id) := by
  have hne : (gather_new_items results seen).isEmpty = false := by
    cases hg : gather_new_items results seen with
    | nil => exact absurd hg h
    | cons a t => rfl
  have hcs : cycleStep false sendOk results seen
      = { newSeen := seen ++ (gather_new_items results seen).map Item.id,
          attempted := [], delivered := [], saved := true } := by
    simp [cycleStep, hne]
  refine ⟨by rw [hcs], by rw [hcs], by rw [hcs], by rw [hcs], ?_⟩
  intro it hit hasChannel2 sendOk2 inputs out hout
  apply runTrace_avoids_seen hasChannel2 sendOk2 inputs _ it.id ?_ out hout
  rw [hcs]
  exact List.mem_append_right _ (List.mem_map_of_mem _ hit)

/-- Witness for C10: with no channel, a fresh item's id is recorded and
persisted while nothing is delivered. -/
theorem c10_no_channel_marks_seen_witness :
    (cycleStep false (fun _ => true) [Except.ok [itemEx]] []).delivered = []
    ∧ (cycleStep false (fun _ => true) [Except.ok [itemEx]] []).saved = true := by
  have h := c10_no_channel_marks_seen (fun _ => true) [Except.ok [itemEx]] [] (by decide)
  exact ⟨h.1, h.2.2.2.1⟩

end HuelgasBot
